import Mathlib

/-!
Verification development for the stacktracify CLI
(`src/index.js`, `src/unnamed/part_000`, `src/unnamed/part_001`).
The model below is a shallow embedding of the most complete variant,
`src/unnamed/part_001` (the variant cited by the statements under check);
divergences of the other two variants are noted where relevant.

JavaScript strings are modelled as `List Char`, JS numbers occurring as
stack-trace line/column numbers as `Int`, nullable values as `Option`,
thrown exceptions as explicit outcome constructors, and external
collaborators (file system, clipboard, `JSON.parse`, the `source-map` and
`stacktrace-parser` libraries) as oracle fields of an `Env` record.
-/

namespace Stacktracify

/-- JavaScript strings, modelled as lists of unicode characters. -/
abbrev Str := List Char

/-- The character class `\s` of JavaScript regular expressions and the set of
characters removed by `String.prototype.trim` (whitespace and line
terminators), decided on the character's code point. -/
def isJsWs (c : Char) : Bool :=
  decide (c.toNat = 32) || decide (c.toNat = 9) || decide (c.toNat = 10) ||
  decide (c.toNat = 13) || decide (c.toNat = 11) || decide (c.toNat = 12) ||
  decide (c.toNat = 160) || decide (c.toNat = 5760) ||
  (decide (8192 ≤ c.toNat) && decide (c.toNat ≤ 8202)) ||
  decide (c.toNat = 8232) || decide (c.toNat = 8233) || decide (c.toNat = 8239) ||
  decide (c.toNat = 8287) || decide (c.toNat = 12288) || decide (c.toNat = 65279)

/-- The character class `\d` of JavaScript regular expressions. -/
def isAsciiDigit (c : Char) : Bool :=
  decide (48 ≤ c.toNat) && decide (c.toNat ≤ 57)

/-- Decides whether a maximal non-whitespace token is matched in full by the
regex fragment `[^\s]+:\d+:\d+` (anchored on both sides within the token,
as forced by the surrounding `(\s+)`/`\s+` context of the source regex).
This holds exactly when the token decomposes as
`f ++ ":" ++ d1 ++ ":" ++ d2` with `f` nonempty and `d1`, `d2` nonempty
digit strings, which is decided from the right end: the maximal digit
suffix must be nonempty and preceded by a colon, twice over, leaving a
nonempty head. -/
def locMatch (tok : Str) : Bool :=
  match tok.reverse.dropWhile isAsciiDigit, tok.reverse.takeWhile isAsciiDigit with
  | ':' :: r1, _ :: _ =>
    (match r1.dropWhile isAsciiDigit, r1.takeWhile isAsciiDigit with
     | ':' :: fr, _ :: _ => !fr.isEmpty
     | _, _ => false)
  | _, _ => false

/-- Splits a raw line into the four maximal runs inspected by the regex
`^(\s+)([^\s]+:\d+:\d+)\s+([^\s]+)$` from the line-normalisation step of
`stacktracify`: leading whitespace, first token, separating whitespace,
and the remainder.  (Because the regex alternates the complementary
classes `\s` and `[^\s]`, its three groups, when it matches, are exactly
these maximal runs.) -/
def lineSpans (line : Str) : Str × Str × Str × Str :=
  let ws := line.takeWhile isJsWs
  let r1 := line.dropWhile isJsWs
  let tok2 := r1.takeWhile (fun c => !isJsWs c)
  let r2 := r1.dropWhile (fun c => !isJsWs c)
  (ws, tok2, r2.takeWhile isJsWs, r2.dropWhile isJsWs)

/-- Whether a raw line matches the regex
`^(\s+)([^\s]+:\d+:\d+)\s+([^\s]+)$` used by `stacktracify` to detect
non-standard stack-trace lines such as `index-12345678.js:1:2 a`:
the line must be leading whitespace, then a token of the location shape,
then whitespace, then one final token reaching the end of the line. -/
def lineMatches (line : Str) : Bool :=
  match lineSpans line with
  | (ws, tok2, ws2, tok3) =>
    !ws.isEmpty && !tok2.isEmpty && !ws2.isEmpty && !tok3.isEmpty &&
    tok3.all (fun c => !isJsWs c) && locMatch tok2

/-- The per-line normalisation step of `stacktracify`
(`lines.map((line) => ...)` in `src/unnamed/part_001`): a line matching the
regex `^(\s+)([^\s]+:\d+:\d+)\s+([^\s]+)$` is rewritten via the template
with the three groups, every other line is returned unchanged. -/
def normalizeLine (line : Str) : Str :=
  match lineSpans line with
  | (ws, tok2, _ws2, tok3) =>
    if lineMatches line then
      ws ++ "at ".data ++ tok3 ++ " (".data ++ tok2 ++ ")".data
    else line

/-- Models `String.prototype.trim`. -/
def jsTrim (s : Str) : Str :=
  ((s.dropWhile isJsWs).reverse.dropWhile isJsWs).reverse

/-- Removes one trailing carriage return, used to model the separator regex
`/\r?\n/` of `String.prototype.split`. -/
def dropTailCR (l : Str) : Str :=
  if l.getLast? = some '\r' then l.dropLast else l

/-- Models `str.split(/\r?\n/)`: split at every line feed and strip a carriage
return that immediately precedes one (a carriage return not followed by a
line feed is kept, including at the very end of the string). -/
def splitReNl (s : Str) : List Str :=
  let ps := s.splitOn '\n'
  ps.dropLast.map dropTailCR ++ ps.drop (ps.length - 1)

/-- Models `lines.join("\n")`. -/
def joinNl (ls : List Str) : Str :=
  List.intercalate ['\n'] ls

/-- The object returned by `SourceMapConsumer.originalPositionFor`: original
source, line, column and symbol name, each `null` when the position is not
found in the map. -/
structure LookupResult where
  source : Option Str
  line : Option Int
  column : Option Int
  name : Option Str
deriving Repr, DecidableEq

/-- The argument `{ line: lineNumber, column }` passed to
`findPositionInAllSourceMaps` (the column may be `undefined`). -/
structure Lookup where
  line : Int
  column : Option Int
deriving Repr, DecidableEq

/-- One loaded `SourceMapConsumer`.  `originalPositionFor` is its read-only
query behaviour (the `source-map` library's lookup, left abstract).
`props` records the numeric properties written on the consumer *object* by
the preference-heuristic branch (`consumer[0] = lookupValue;
consumer[index] = swap;`); the `source-map` library never reads such
index properties, so they do not influence `originalPositionFor`. -/
structure Consumer where
  originalPositionFor : Lookup → LookupResult
  props : List (Nat × Option LookupResult)

/-- JavaScript property read `consumer[k]` on the modelled extra
properties (`undefined` when never assigned). -/
def getProp (ps : List (Nat × Option LookupResult)) (k : Nat) : Option LookupResult :=
  match ps.lookup k with
  | some v => v
  | none => none

/-- JavaScript property write `consumer[k] = v`. -/
def setProp (ps : List (Nat × Option LookupResult)) (k : Nat)
    (v : Option LookupResult) : List (Nat × Option LookupResult) :=
  (k, v) :: ps.eraseP (fun p => p.1 == k)

/-- Truthiness of `lookupValue?.line` in JavaScript: `null`/`undefined` and
`0` are falsy, every other number is truthy. -/
def lineTruthy : Option Int → Bool
  | none => false
  | some n => n != 0

/-- The statement block
`const swap = consumer[0]; consumer[0] = lookupValue; consumer[index] = swap;`
executed on the consumer that produced the first successful lookup of the
run at a nonzero index.  Note that it mutates properties of the single
`consumer` loop variable; the `consumers` array is not touched. -/
def applySwap (c : Consumer) (index : Nat) (lookupValue : LookupResult) : Consumer :=
  let swap := getProp c.props 0
  { c with props := setProp (setProp c.props 0 (some lookupValue)) index swap }

/-- Result of one call to `findPositionInAllSourceMaps`: the returned value,
the consumer list after the call (object mutations included), the
`preferredConsumerOrder` flag after the call, the indices whose
`originalPositionFor` was invoked (in invocation order), and whether the
swap branch of the preference heuristic executed. -/
structure ResolveOut where
  result : Option LookupResult
  consumers : List Consumer
  preferred : Bool
  queried : List Nat
  swapped : Bool

/-- The `for (const consumer of consumers)` loop of
`findPositionInAllSourceMaps`, with `index` the running counter.  Each
iteration queries `originalPositionFor`; on a truthy `line` the preference
heuristic fires (at most once per run) and the value is returned
immediately; otherwise the next consumer is tried. -/
def findLoop (preferred : Bool) (lookup : Lookup) :
    List Consumer → Nat → ResolveOut
  | [], _ => ⟨none, [], preferred, [], false⟩
  | consumer :: rest, index =>
    let lookupValue := consumer.originalPositionFor lookup
    if lineTruthy lookupValue.line then
      if preferred then ⟨some lookupValue, consumer :: rest, preferred, [index], false⟩
      else if index = 0 then ⟨some lookupValue, consumer :: rest, true, [index], false⟩
      else ⟨some lookupValue, applySwap consumer index lookupValue :: rest, true, [index], true⟩
    else
      let o := findLoop preferred lookup rest (index + 1)
      ⟨o.result, consumer :: o.consumers, o.preferred, index :: o.queried, o.swapped⟩

/-- The function `findPositionInAllSourceMaps(lookup)` from `src/unnamed/part_001`
(identical in the other two variants), taking the captured mutable state
(`consumers`, `preferredConsumerOrder`) explicitly.  The initial
`if (!consumers.length) return;` check coincides with the empty case of
the loop. -/
def findPositionInAllSourceMaps (preferred : Bool) (consumers : List Consumer)
    (lookup : Lookup) : ResolveOut :=
  findLoop preferred lookup consumers 0

/-- Modelled from the spec: the stateless first-match resolver that §4.4
describes — iterate the Table Set in its current order and return the
first lookup whose `line` is defined, with no preference state.  Used as
the reference point of the refinement statement. -/
def firstMatchResolver (lookup : Lookup) : List Consumer → Option LookupResult
  | [] => none
  | c :: rest =>
    let v := c.originalPositionFor lookup
    if lineTruthy v.line then some v else firstMatchResolver lookup rest

/-- Index of the first consumer whose lookup yields a truthy line. -/
def firstHitIndex (lookup : Lookup) : List Consumer → Option Nat
  | [] => none
  | c :: rest =>
    if lineTruthy (c.originalPositionFor lookup).line then some 0
    else (firstHitIndex lookup rest).map (· + 1)

/-- Number of consumers the short-circuiting scan visits: the position of
the first hit plus one, or the whole list when no consumer hits. -/
def scanCount (lookup : Lookup) (cs : List Consumer) : Nat :=
  match firstHitIndex lookup cs with
  | some i => i + 1
  | none => cs.length

/-- One parsed stack frame as produced by the external `stacktrace-parser`
library: `{ methodName, lineNumber, column }`, each possibly `null`. -/
structure Frame where
  methodName : Option Str
  lineNumber : Option Int
  column : Option Int
deriving Repr, DecidableEq

/-- The JavaScript idiom `opt || fallback` on a nullable string: `null`,
`undefined` and the empty string are falsy. -/
def jsOr (o : Option Str) (fallback : Str) : Str :=
  match o with
  | none => fallback
  | some s => if s.isEmpty then fallback else s

/-- Models `methodName || "[unknown]"`. -/
def orUnknown (m : Option Str) : Str :=
  jsOr m ("[unknown]".data)

/-- Template-literal interpolation of a nullable string
(`null` prints as `null`). -/
def renderOptStr (o : Option Str) : Str :=
  match o with
  | none => "null".data
  | some s => s

/-- Template-literal interpolation of a nullable number. -/
def renderOptInt (o : Option Int) : Str :=
  match o with
  | none => "null".data
  | some n => (toString n).data

/-- The resolved-frame output template
`    at ${pos.name || methodName || "[unknown]"} (${pos.source}:${pos.line}:${pos.column})`. -/
def renderResolved (pos : LookupResult) (methodName : Option Str) : Str :=
  "    at ".data ++ jsOr pos.name (orUnknown methodName) ++ " (".data ++
    renderOptStr pos.source ++ [':'] ++ renderOptInt pos.line ++ [':'] ++
    renderOptInt pos.column ++ [')']

/-- The debug line logged inside the resolver loop for each queried
consumer; both interpolated values are objects, so the template renders
them as `[object Object]`. -/
def identifyMsg : Str :=
  "Identifying source map consumer for lookup [object Object]! [object Object] result!".data

/-- Result of processing one frame of the parsed stack: the lines printed
by the renderer, the debug lines logged during resolution (emitted before
the rendered line), and the resolver state after the frame together with
the query/swap bookkeeping of the resolve call ([] and `false` when the
resolver was not invoked). -/
structure FrameOut where
  rendered : List Str
  debugLog : List Str
  consumers : List Consumer
  preferred : Bool
  queried : List Nat
  swapped : Bool

/-- The body of `stack.forEach(({ methodName, lineNumber, column }) => ...)`
in `src/unnamed/part_001`: a frame whose `lineNumber` is `null` or `< 1`
is printed as `    at <methodName || "[unknown]">` without consulting any
table; otherwise the position is resolved and printed only when a result
with a non-null `line` came back.  (The debug log lines, one per queried
consumer, are emitted inside the resolver before the value is returned,
hence before the rendered line.)  The per-frame `try`/`catch` never fires:
every operation in the body is total in this model, as in the source all
values reaching it are plain data. -/
def processFrame (debug : Bool) (consumers : List Consumer) (preferred : Bool)
    (f : Frame) : FrameOut :=
  match f.lineNumber with
  | none => ⟨["    at ".data ++ orUnknown f.methodName], [], consumers, preferred, [], false⟩
  | some n =>
    if n < 1 then
      ⟨["    at ".data ++ orUnknown f.methodName], [], consumers, preferred, [], false⟩
    else
      let o := findPositionInAllSourceMaps preferred consumers ⟨n, f.column⟩
      let dbg := if debug then o.queried.map (fun _ => identifyMsg) else []
      match o.result with
      | some pos =>
        if pos.line.isSome then
          ⟨[renderResolved pos f.methodName], dbg, o.consumers, o.preferred, o.queried, o.swapped⟩
        else ⟨[], dbg, o.consumers, o.preferred, o.queried, o.swapped⟩
      | none => ⟨[], dbg, o.consumers, o.preferred, o.queried, o.swapped⟩

/-- JS-style console output, separating `console.log` from `console.error`. -/
inductive ConsoleLine
  | log (s : Str)
  | error (s : Str)
deriving Repr, DecidableEq

/-- Folds `processFrame` over the whole parsed stack, collecting console
output in print order. -/
def framesConsole (debug : Bool) (consumers : List Consumer) (preferred : Bool) :
    List Frame → List ConsoleLine
  | [] => []
  | f :: rest =>
    let o := processFrame debug consumers preferred f
    (o.debugLog ++ o.rendered).map ConsoleLine.log ++
      framesConsole debug o.consumers o.preferred rest

/-- The successive values of the `preferredConsumerOrder` flag observed
after each frame of a run. -/
def flagTrace (debug : Bool) (consumers : List Consumer) (preferred : Bool) :
    List Frame → List Bool
  | [] => []
  | f :: rest =>
    let o := processFrame debug consumers preferred f
    o.preferred :: flagTrace debug o.consumers o.preferred rest

/-- Whether the swap branch of the preference heuristic executed on each
frame of a run. -/
def swapTrace (debug : Bool) (consumers : List Consumer) (preferred : Bool) :
    List Frame → List Bool
  | [] => []
  | f :: rest =>
    let o := processFrame debug consumers preferred f
    o.swapped :: swapTrace debug o.consumers o.preferred rest

/-- The usable line number of a frame: `none` exactly when the code takes
the `lineNumber == null || lineNumber < 1` branch. -/
def usableLine (f : Frame) : Option Int :=
  match f.lineNumber with
  | none => none
  | some n => if n < 1 then none else some n

/-- A JavaScript exception value; only its `message` is observed. -/
structure JsError where
  message : Str
deriving Repr, DecidableEq

/-- An opaque parsed source-map document (`JSON.parse` output). -/
structure MapJson where
  raw : Str
deriving Repr, DecidableEq

/-- The external collaborators of `stacktracify`, as oracles: file system,
`JSON.parse`, `new SourceMapConsumer`, clipboard, and the external
`stacktrace-parser` library.  `Except.error` models a throw/rejection. -/
structure Env where
  readFile : Str → Except JsError Str
  parseJson : Str → Except JsError MapJson
  newConsumer : MapJson → Except JsError Consumer
  clipboard : Except JsError Str
  parseStack : Str → List Frame

/-- The `mapPath` argument: `undefined`, a single string, or an array of
paths (the `--map` flag with `isMultiple`). -/
inductive MapArg
  | undef
  | single (s : Str)
  | multi (l : List Str)
deriving Repr, DecidableEq

/-- Falsiness of `mapPath` in `if (!mapPath) cli.showHelp();`: `undefined`
and the empty string are falsy; an array is always truthy. -/
def mapFalsy : MapArg → Bool
  | .undef => true
  | .single s => s.isEmpty
  | .multi _ => false

/-- The arguments of `stacktracify({ mapPath, file, debug })`. -/
structure Args where
  mapPath : MapArg
  file : Option Str
  debug : Bool

/-- Outcome of loading a single source-map document inside the loop of
`src/unnamed/part_001`: read the file, return early from the whole
function when its content is falsy (`if (!file) return;`), otherwise
parse it and construct a consumer; a throw at any step is `fail`. -/
inductive OneLoad
  | ok (c : Consumer)
  | fail (e : JsError)
  | empty

/-- Loads one document: `fs.readFile`, the `if (!file) return;` guard,
`JSON.parse`, `new SourceMapConsumer`. -/
def loadOne (env : Env) (m : Str) : OneLoad :=
  match env.readFile m with
  | .error e => .fail e
  | .ok content =>
    if content.isEmpty then .empty
    else
      match env.parseJson content with
      | .error e => .fail e
      | .ok mc =>
        match env.newConsumer mc with
        | .error e => .fail e
        | .ok smc => .ok smc

/-- How the loading phase ended: the loop ran to completion, an exception
was caught by the `catch` surrounding the whole loop, or the
`if (!file) return;` guard returned from `stacktracify` early. -/
inductive LoadStatus
  | completed
  | caught (e : JsError)
  | earlyExit
deriving Repr, DecidableEq

/-- State after the loading phase: the consumers pushed so far, how the
phase ended, and the console output it produced. -/
structure LoadResult where
  consumers : List Consumer
  status : LoadStatus
  console : List ConsoleLine

/-- Debug line logged before loading a document. -/
def loadMsg1 (m : Str) : Str :=
  "Loading ".data ++ m ++ " as source map consumer!".data

/-- Debug line logged after a document produced a consumer. -/
def loadMsg2 (m : Str) : Str :=
  "Loaded source map consumer for ".data ++ m ++ "!".data

/-- The `for (const m of mapPath)` loading loop of `src/unnamed/part_001`.
The surrounding `try`/`catch` sits *outside* the loop, so the first
throw ends the whole loop with the consumers accumulated so far; the
debug log after the loop runs only when the loop completes. -/
def loadConsumers (env : Env) (debug : Bool) :
    List Str → List Consumer → List ConsoleLine → LoadResult
  | [], acc, logs =>
    ⟨acc, .completed,
      logs ++ (if debug then [.log ("Loading source map consumers complete!".data)] else [])⟩
  | m :: rest, acc, logs =>
    let logs1 := logs ++ (if debug then [.log (loadMsg1 m)] else [])
    match loadOne env m with
    | .fail e => ⟨acc, .caught e, logs1⟩
    | .empty => ⟨acc, .earlyExit, logs1⟩
    | .ok c =>
      loadConsumers env debug rest (acc ++ [c])
        (logs1 ++ (if debug then [.log (loadMsg2 m)] else []))

/-- The single-path branch of the loading phase
(`JSON.parse(await fs.readFile(mapPath, "utf-8"))` then
`new SourceMapConsumer`); it has no debug logging and no emptiness
guard. -/
def loadSingle (env : Env) (s : Str) : LoadResult :=
  match env.readFile s with
  | .error e => ⟨[], .caught e, []⟩
  | .ok content =>
    match env.parseJson content with
    | .error e => ⟨[], .caught e, []⟩
    | .ok mc =>
      match env.newConsumer mc with
      | .error e => ⟨[], .caught e, []⟩
      | .ok smc => ⟨[smc], .completed, []⟩

/-- The whole loading phase, dispatching on `Array.isArray(mapPath)`.
(The `undef` arm is unreachable: the caller only reaches the loading
phase when `mapPath` is truthy.) -/
def loadPhase (env : Env) (a : Args) : LoadResult :=
  match a.mapPath with
  | .undef => ⟨[], .completed, []⟩
  | .single s => loadSingle env s
  | .multi docs => loadConsumers env a.debug docs [] []

/-- Result of the body of `stacktracify` (everything inside the outer
`try`): console output, whether `cli.showHelp()` ran, whether
`stackTraceParser.parse` was invoked, and the exception propagating to
the outer `catch`, if any. -/
structure BodyOut where
  console : List ConsoleLine
  helpShown : Bool
  stackParsed : Bool
  thrown : Option JsError

/-- Reading the stack trace: from the designated file when `--file` was
given, otherwise from the clipboard. -/
def readTrace (env : Env) (a : Args) : Except JsError Str :=
  match a.file with
  | some f => env.readFile f
  | none => env.clipboard

/-- The trace-processing tail of `stacktracify`: trim and split the text,
normalise the body lines, parse them with `stacktrace-parser` (throwing
`No stack found` on an empty stack), print the header when truthy, then
process every frame. -/
def tracePhase (env : Env) (a : Args) (console1 : List ConsoleLine)
    (consumers : List Consumer) (str : Str) : BodyOut :=
  let parts := splitReNl (jsTrim str)
  let header := parts.headD []
  let lines := parts.tail.map normalizeLine
  let stack := env.parseStack (joinNl lines)
  if stack.isEmpty then ⟨console1, false, true, some ⟨"No stack found".data⟩⟩
  else
    let consoleH := console1 ++ (if header.isEmpty then [] else [.log header])
    ⟨consoleH ++ framesConsole a.debug consumers false stack, false, true, none⟩

/-- After the loading phase: throw `NoTablesLoaded` when no consumer was
built, otherwise read the stack-trace text (a read failure propagates to
the outer `catch`) and process it. -/
def afterLoad (env : Env) (a : Args) (console1 : List ConsoleLine)
    (consumers : List Consumer) : BodyOut :=
  if consumers.isEmpty then
    ⟨console1, false, false, some ⟨"Unable to resolve source map consumers!".data⟩⟩
  else
    match readTrace env a with
    | .error e => ⟨console1, false, false, some e⟩
    | .ok str => tracePhase env a console1 consumers str

/-- The body of `stacktracify` from `src/unnamed/part_001`: help on a falsy
`mapPath` (meow's `showHelp` ends the process), then the loading phase
with its own `catch` that logs
`console.log("An error occurred loading source map consumers!", err, err.message)`
(modelled as a single log line carrying the message), then the rest of
the run. -/
def stacktracifyBody (env : Env) (a : Args) : BodyOut :=
  if mapFalsy a.mapPath then ⟨[], true, false, none⟩
  else
    let load := loadPhase env a
    match load.status with
    | .earlyExit => ⟨load.console, false, false, none⟩
    | .completed => afterLoad env a load.console load.consumers
    | .caught e =>
      afterLoad env a
        (load.console ++
          [.log ("An error occurred loading source map consumers! ".data ++ e.message)])
        load.consumers

/-- What a caller of `stacktracify` observes: printed console output plus
the flags of the body. -/
structure RunResult where
  console : List ConsoleLine
  helpShown : Bool
  stackParsed : Bool
deriving Repr

/-- The `stacktracify` entry point: the whole body runs inside
`try { ... } catch (err) { console.error(err); }`, so every exception the
body throws is turned into a final `console.error` line and a normal
return.  `Except.error` in the result type would model a rejection
reaching the caller. -/
def stacktracify (env : Env) (a : Args) : Except JsError RunResult :=
  let b := stacktracifyBody env a
  match b.thrown with
  | some e => .ok ⟨b.console ++ [.error e.message], b.helpShown, b.stackParsed⟩
  | none => .ok ⟨b.console, b.helpShown, b.stackParsed⟩

/-- Whether the promise returned by an async function resolved (rather than
rejected). -/
def promiseResolved (r : Except JsError RunResult) : Bool :=
  match r with
  | .ok _ => true
  | .error _ => false

/-- Whether a console line starts with the frame-line marker `    at `. -/
def frameStart (s : Str) : Bool :=
  s.take 7 == "    at ".data

/-! Concrete fixtures used to evaluate the model on explicit inputs. -/

/-- An all-null `originalPositionFor` result (position not found). -/
def missRes : LookupResult := ⟨none, none, none, none⟩

/-- A successful `originalPositionFor` result. -/
def hitRes : LookupResult :=
  ⟨some ("src/original.ts".data), some 7, some 3, some ("originalName".data)⟩

/-- A consumer whose lookups always miss. -/
def cMiss : Consumer := ⟨fun _ => missRes, []⟩

/-- A consumer whose lookups always hit. -/
def cHit : Consumer := ⟨fun _ => hitRes, []⟩

/-- A sample lookup position. -/
def lk0 : Lookup := ⟨2, some 4⟩

/-- The JSON parse error raised by the malformed document of `envC`. -/
def eB : JsError := ⟨"Unexpected token".data⟩

/-- Consumer built from document `mapA` of `envC`. -/
def cA : Consumer := ⟨fun _ => hitRes, []⟩

/-- Consumer built from document `mapC` of `envC`. -/
def cC : Consumer := ⟨fun _ => missRes, []⟩

/-- A concrete environment: documents `mapA` and `mapC` are well formed,
`mapB` holds malformed JSON, `mapEmpty` reads as an empty string, and
every other path fails to read. -/
def envC : Env where
  readFile := fun p =>
    if p = "mapA".data then .ok ("jsonA".data)
    else if p = "mapB".data then .ok ("jsonB".data)
    else if p = "mapC".data then .ok ("jsonC".data)
    else if p = "mapEmpty".data then .ok []
    else .error ⟨"ENOENT".data⟩
  parseJson := fun s => if s = "jsonB".data then .error eB else .ok ⟨s⟩
  newConsumer := fun j => if j.raw = "jsonA".data then .ok cA else .ok cC
  clipboard := .error ⟨"clipboard unavailable".data⟩
  parseStack := fun _ => []

/-- Arguments whose only map document reads as an empty string. -/
def argsEmptyDoc : Args := ⟨.multi ["mapEmpty".data], none, false⟩

/-- Arguments whose only map document holds malformed JSON. -/
def argsBadDoc : Args := ⟨.multi ["mapB".data], none, false⟩

/-! Helper lemmas. -/

theorem digit_not_jsws (c : Char) (h : isAsciiDigit c = true) : isJsWs c = false := by
  simp only [isAsciiDigit, Bool.and_eq_true, decide_eq_true_eq] at h
  simp only [isJsWs, Bool.or_eq_false_iff, Bool.and_eq_false_iff,
    decide_eq_false_iff_not]
  omega

theorem takeWhile_concat {p : Char → Bool} {l1 : List Char} {c : Char} {t : List Char}
    (h1 : ∀ x ∈ l1, p x = true) (hc : p c = false) :
    (l1 ++ c :: t).takeWhile p = l1 := by
  rw [List.takeWhile_append_of_pos h1]
  simp [List.takeWhile_cons, hc]

theorem dropWhile_concat {p : Char → Bool} {l1 : List Char} {c : Char} {t : List Char}
    (h1 : ∀ x ∈ l1, p x = true) (hc : p c = false) :
    (l1 ++ c :: t).dropWhile p = c :: t := by
  rw [List.dropWhile_append_of_pos h1]
  simp [List.dropWhile_cons, hc]

theorem lineSpans_concat (ws tok2 ws2 m : Str)
    (hws : ∀ c ∈ ws, isJsWs c = true)
    (htok2 : ∀ c ∈ tok2, isJsWs c = false) (htok2n : tok2 ≠ [])
    (hws2 : ∀ c ∈ ws2, isJsWs c = true) (hws2n : ws2 ≠ [])
    (hm : ∀ c ∈ m, isJsWs c = false) (hmn : m ≠ []) :
    lineSpans (ws ++ tok2 ++ ws2 ++ m) = (ws, tok2, ws2, m) := by
  obtain ⟨a2, t2, rfl⟩ := List.exists_cons_of_ne_nil htok2n
  obtain ⟨aw, tw, rfl⟩ := List.exists_cons_of_ne_nil hws2n
  obtain ⟨am, tm, rfl⟩ := List.exists_cons_of_ne_nil hmn
  have hsplit1 : ws ++ (a2 :: t2) ++ (aw :: tw) ++ (am :: tm) =
      ws ++ a2 :: (t2 ++ (aw :: tw) ++ (am :: tm)) := by simp
  have htw1 : (ws ++ (a2 :: t2) ++ (aw :: tw) ++ (am :: tm)).takeWhile isJsWs = ws := by
    rw [hsplit1]
    exact takeWhile_concat hws (htok2 a2 (by simp))
  have hdw1 : (ws ++ (a2 :: t2) ++ (aw :: tw) ++ (am :: tm)).dropWhile isJsWs =
      a2 :: (t2 ++ (aw :: tw) ++ (am :: tm)) := by
    rw [hsplit1]
    exact dropWhile_concat hws (htok2 a2 (by simp))
  have hsplit2 : a2 :: (t2 ++ (aw :: tw) ++ (am :: tm)) =
      (a2 :: t2) ++ aw :: (tw ++ (am :: tm)) := by simp
  have htok2' : ∀ x ∈ a2 :: t2, (fun c => !isJsWs c) x = true := by
    intro x hx; simp [htok2 x hx]
  have haw : (fun c => !isJsWs c) aw = false := by simp [hws2 aw (by simp)]
  have htw2 : (a2 :: (t2 ++ (aw :: tw) ++ (am :: tm))).takeWhile (fun c => !isJsWs c) =
      a2 :: t2 := by
    rw [hsplit2]
    exact takeWhile_concat htok2' haw
  have hdw2 : (a2 :: (t2 ++ (aw :: tw) ++ (am :: tm))).dropWhile (fun c => !isJsWs c) =
      aw :: (tw ++ (am :: tm)) := by
    rw [hsplit2]
    exact dropWhile_concat htok2' haw
  have hsplit3 : aw :: (tw ++ (am :: tm)) = (aw :: tw) ++ am :: tm := by simp
  have htw3 : (aw :: (tw ++ (am :: tm))).takeWhile isJsWs = aw :: tw := by
    rw [hsplit3]
    exact takeWhile_concat hws2 (hm am (by simp))
  have hdw3 : (aw :: (tw ++ (am :: tm))).dropWhile isJsWs = am :: tm := by
    rw [hsplit3]
    exact dropWhile_concat hws2 (hm am (by simp))
  simp only [lineSpans]
  rw [htw1, hdw1, htw2, hdw2, htw3, hdw3]

theorem locMatch_build (f d1 d2 : Str) (hf : f ≠ []) (h1 : d1 ≠ []) (h2 : d2 ≠ [])
    (hd1 : ∀ c ∈ d1, isAsciiDigit c = true) (hd2 : ∀ c ∈ d2, isAsciiDigit c = true) :
    locMatch (f ++ [':'] ++ d1 ++ [':'] ++ d2) = true := by
  have hcolon : isAsciiDigit ':' = false := by decide
  have hrev : (f ++ [':'] ++ d1 ++ [':'] ++ d2).reverse =
      d2.reverse ++ ':' :: (d1.reverse ++ ':' :: f.reverse) := by
    simp [List.reverse_append]
  have hd2r : ∀ c ∈ d2.reverse, isAsciiDigit c = true := by
    intro c hc; exact hd2 c (List.mem_reverse.mp hc)
  have hd1r : ∀ c ∈ d1.reverse, isAsciiDigit c = true := by
    intro c hc; exact hd1 c (List.mem_reverse.mp hc)
  have hdw : (f ++ [':'] ++ d1 ++ [':'] ++ d2).reverse.dropWhile isAsciiDigit =
      ':' :: (d1.reverse ++ ':' :: f.reverse) := by
    rw [hrev]; exact dropWhile_concat hd2r hcolon
  have htw : (f ++ [':'] ++ d1 ++ [':'] ++ d2).reverse.takeWhile isAsciiDigit =
      d2.reverse := by
    rw [hrev]; exact takeWhile_concat hd2r hcolon
  have hdw1 : (d1.reverse ++ ':' :: f.reverse).dropWhile isAsciiDigit = ':' :: f.reverse :=
    dropWhile_concat hd1r hcolon
  have htw1 : (d1.reverse ++ ':' :: f.reverse).takeWhile isAsciiDigit = d1.reverse :=
    takeWhile_concat hd1r hcolon
  obtain ⟨b2, u2, he2⟩ := List.exists_cons_of_ne_nil (List.reverse_ne_nil_iff.mpr h2)
  obtain ⟨b1, u1, he1⟩ := List.exists_cons_of_ne_nil (List.reverse_ne_nil_iff.mpr h1)
  rw [he1] at hdw1 htw1
  simp only [List.cons_append] at hdw1 htw1
  simp only [locMatch, hdw, htw, he2, he1, List.cons_append, hdw1, htw1]
  simp [List.isEmpty_eq_true, List.reverse_ne_nil_iff.mpr hf]

theorem applySwap_behavior (c : Consumer) (i : Nat) (v : LookupResult) :
    (applySwap c i v).originalPositionFor = c.originalPositionFor := rfl

theorem findLoop_result (lk : Lookup) (pref : Bool) :
    ∀ (cs : List Consumer) (k : Nat),
      (findLoop pref lk cs k).result = firstMatchResolver lk cs := by
  intro cs
  induction cs with
  | nil => intro k; rfl
  | cons c rest ih =>
    intro k
    by_cases h : lineTruthy ((c.originalPositionFor lk).line)
    · cases pref <;> simp [findLoop, firstMatchResolver, h] <;> split <;> rfl
    · simp [findLoop, firstMatchResolver, h, ih (k + 1)]

theorem findLoop_behaviors (lk : Lookup) (pref : Bool) :
    ∀ (cs : List Consumer) (k : Nat),
      (findLoop pref lk cs k).consumers.map (fun c => c.originalPositionFor) =
        cs.map (fun c => c.originalPositionFor) := by
  intro cs
  induction cs with
  | nil => intro k; rfl
  | cons c rest ih =>
    intro k
    by_cases h : lineTruthy ((c.originalPositionFor lk).line)
    · cases pref <;> simp [findLoop, h] <;> split <;> simp [applySwap]
    · simp [findLoop, h, ih (k + 1)]

theorem findLoop_preferred (lk : Lookup) (pref : Bool) :
    ∀ (cs : List Consumer) (k : Nat),
      (findLoop pref lk cs k).preferred = (pref || (firstMatchResolver lk cs).isSome) := by
  intro cs
  induction cs with
  | nil => intro k; simp [findLoop, firstMatchResolver]
  | cons c rest ih =>
    intro k
    by_cases h : lineTruthy ((c.originalPositionFor lk).line)
    · cases pref <;> simp [findLoop, firstMatchResolver, h] <;> split <;> rfl
    · simp [findLoop, firstMatchResolver, h, ih (k + 1)]

theorem findLoop_swapped (lk : Lookup) (pref : Bool) :
    ∀ (cs : List Consumer) (k : Nat),
      (findLoop pref lk cs k).swapped =
        (!pref && (match firstHitIndex lk cs with
                   | some i => decide (i + k ≠ 0)
                   | none => false)) := by
  intro cs
  induction cs with
  | nil => intro k; simp [findLoop, firstHitIndex]
  | cons c rest ih =>
    intro k
    by_cases h : lineTruthy ((c.originalPositionFor lk).line)
    · cases pref <;> by_cases hk : k = 0 <;>
        simp [findLoop, firstHitIndex, h, hk]
    · rcases hfh : firstHitIndex lk rest with _ | i <;>
        simp [findLoop, firstHitIndex, h, ih (k + 1), hfh]

theorem scanCount_cons_miss (lk : Lookup) (c : Consumer) (rest : List Consumer)
    (h : lineTruthy ((c.originalPositionFor lk).line) = false) :
    scanCount lk (c :: rest) = scanCount lk rest + 1 := by
  simp only [scanCount, firstHitIndex, h]
  rcases hfh : firstHitIndex lk rest with _ | i <;> simp [hfh]

theorem range_map_add_succ (n k : Nat) :
    (List.range (n + 1)).map (· + k) = k :: (List.range n).map (· + (k + 1)) := by
  rw [List.range_succ_eq_map]
  simp only [List.map_cons, Nat.zero_add, List.map_map]
  refine congrArg (k :: ·) (List.map_congr_left ?_)
  intro x _
  simp [Function.comp]
  omega

theorem findLoop_queried (lk : Lookup) (pref : Bool) :
    ∀ (cs : List Consumer) (k : Nat),
      (findLoop pref lk cs k).queried = (List.range (scanCount lk cs)).map (· + k) := by
  intro cs
  induction cs with
  | nil => intro k; simp [findLoop, scanCount, firstHitIndex]
  | cons c rest ih =>
    intro k
    by_cases h : lineTruthy ((c.originalPositionFor lk).line)
    · have hsc : scanCount lk (c :: rest) = 1 := by simp [scanCount, firstHitIndex, h]
      have hr : (List.range 1).map (· + k) = [k] := by
        have h1 : List.range 1 = [0] := rfl
        rw [h1, List.map_cons, List.map_nil, Nat.zero_add]
      rw [hsc, hr]
      cases pref <;> simp [findLoop, h] <;> split <;> rfl
    · rw [scanCount_cons_miss lk c rest (by simp [h]),
        range_map_add_succ (scanCount lk rest) k]
      simp [findLoop, h, ih (k + 1)]

theorem firstMatch_isSome (lk : Lookup) :
    ∀ (cs : List Consumer),
      (firstMatchResolver lk cs).isSome = (firstHitIndex lk cs).isSome := by
  intro cs
  induction cs with
  | nil => rfl
  | cons c rest ih =>
    by_cases h : lineTruthy ((c.originalPositionFor lk).line) <;>
      simp [firstMatchResolver, firstHitIndex, h, ih]

theorem findPos_preferred_true (cs : List Consumer) (lk : Lookup) :
    (findPositionInAllSourceMaps true cs lk).preferred = true := by
  rw [findPositionInAllSourceMaps, findLoop_preferred]
  simp

theorem findPos_swapped_true (cs : List Consumer) (lk : Lookup) :
    (findPositionInAllSourceMaps true cs lk).swapped = false := by
  rw [findPositionInAllSourceMaps, findLoop_swapped]
  simp

theorem processFrame_unusable (debug : Bool) (cs : List Consumer) (pref : Bool) (f : Frame)
    (h : f.lineNumber = none ∨ ∃ n, f.lineNumber = some n ∧ n < 1) :
    processFrame debug cs pref f =
      ⟨["    at ".data ++ orUnknown f.methodName], [], cs, pref, [], false⟩ := by
  rcases h with h | ⟨n, hn, hlt⟩
  · simp [processFrame, h]
  · simp [processFrame, hn, hlt]

theorem processFrame_preferred_true (debug : Bool) (cs : List Consumer) (f : Frame) :
    (processFrame debug cs true f).preferred = true := by
  rcases hf : f.lineNumber with _ | n
  · simp [processFrame, hf]
  · by_cases hlt : n < 1
    · simp [processFrame, hf, hlt]
    · rcases ho : (findPositionInAllSourceMaps true cs ⟨n, f.column⟩).result with _ | pos <;>
        simp [processFrame, hf, hlt, ho, findPos_preferred_true, apply_ite FrameOut.preferred]

theorem processFrame_swapped_true (debug : Bool) (cs : List Consumer) (f : Frame) :
    (processFrame debug cs true f).swapped = false := by
  rcases hf : f.lineNumber with _ | n
  · simp [processFrame, hf]
  · by_cases hlt : n < 1
    · simp [processFrame, hf, hlt]
    · rcases ho : (findPositionInAllSourceMaps true cs ⟨n, f.column⟩).result with _ | pos <;>
        simp [processFrame, hf, hlt, ho, findPos_swapped_true, apply_ite FrameOut.swapped]

theorem processFrame_preferred_false (debug : Bool) (cs : List Consumer) (f : Frame) :
    (processFrame debug cs false f).preferred =
      (match usableLine f with
       | none => false
       | some n => (firstMatchResolver ⟨n, f.column⟩ cs).isSome) := by
  rcases hf : f.lineNumber with _ | n
  · simp [processFrame, usableLine, hf]
  · by_cases hlt : n < 1
    · simp [processFrame, usableLine, hf, hlt]
    · have hp : (findPositionInAllSourceMaps false cs ⟨n, f.column⟩).preferred =
          (firstMatchResolver ⟨n, f.column⟩ cs).isSome := by
        rw [findPositionInAllSourceMaps, findLoop_preferred]
        simp
      rcases ho : (findPositionInAllSourceMaps false cs ⟨n, f.column⟩).result with _ | pos <;>
        simp [processFrame, usableLine, hf, hlt, ho, hp, apply_ite FrameOut.preferred]

theorem flagTrace_chain (debug : Bool) :
    ∀ (frames : List Frame) (cs : List Consumer) (pref : Bool),
      List.Chain' (fun a b => a ≤ b) (pref :: flagTrace debug cs pref frames) := by
  intro frames
  induction frames with
  | nil => intro cs pref; simp [flagTrace]
  | cons f rest ih =>
    intro cs pref
    simp only [flagTrace]
    rw [List.chain'_cons]
    refine ⟨?_, ih _ _⟩
    cases hp : pref
    · exact Bool.false_le _
    · rw [processFrame_preferred_true]

theorem swapTrace_replicate (debug : Bool) :
    ∀ (frames : List Frame) (cs : List Consumer),
      swapTrace debug cs true frames = List.replicate frames.length false := by
  intro frames
  induction frames with
  | nil => intro cs; rfl
  | cons f rest ih =>
    intro cs
    simp only [swapTrace, processFrame_swapped_true, processFrame_preferred_true,
      List.length_cons, List.replicate_succ]
    exact congrArg (false :: ·) (ih _)

theorem take7_append (l1 l2 : Str) (h : 7 ≤ l1.length) :
    (l1 ++ l2).take 7 = l1.take 7 := by
  rw [List.take_append_eq_append_take]
  have h0 : 7 - l1.length = 0 := by omega
  rw [h0, List.take_zero, List.append_nil]

theorem frameStart_false_of_head (l1 l2 : Str) (h : 7 ≤ l1.length)
    (h2 : l1.take 7 ≠ "    at ".data) : frameStart (l1 ++ l2) = false := by
  unfold frameStart
  rw [take7_append l1 l2 h]
  exact beq_eq_false_iff_ne.mpr h2

theorem frameStart_loadMsg1 (m : Str) : frameStart (loadMsg1 m) = false := by
  unfold loadMsg1
  refine frameStart_false_of_head ("Loading ".data ++ m) _ (by simp) ?_
  rw [take7_append _ m (by decide)]
  decide

theorem frameStart_loadMsg2 (m : Str) : frameStart (loadMsg2 m) = false := by
  unfold loadMsg2
  refine frameStart_false_of_head ("Loaded source map consumer for ".data ++ m) _ (by simp) ?_
  rw [take7_append _ m (by decide)]
  decide

theorem frameStart_errLoad (t : Str) :
    frameStart ("An error occurred loading source map consumers! ".data ++ t) = false := by
  refine frameStart_false_of_head _ _ (by decide) ?_
  decide

theorem loadConsumers_logs (env : Env) (debug : Bool) :
    ∀ (docs : List Str) (acc : List Consumer) (logs : List ConsoleLine),
      (∀ s, ConsoleLine.log s ∈ logs → frameStart s = false) →
      ∀ s, ConsoleLine.log s ∈ (loadConsumers env debug docs acc logs).console →
        frameStart s = false := by
  intro docs
  induction docs with
  | nil =>
    intro acc logs hlogs s hs
    simp only [loadConsumers] at hs
    rcases List.mem_append.mp hs with hs | hs
    · exact hlogs s hs
    · rcases hd : debug with _ | _
      · rw [hd] at hs; simp at hs
      · rw [hd] at hs
        simp only [if_true] at hs
        have := List.mem_singleton.mp hs
        rw [ConsoleLine.log.injEq] at this
        rw [this]
        decide
  | cons m rest ih =>
    intro acc logs hlogs s hs
    have hlogs1 : ∀ t, ConsoleLine.log t ∈
        (logs ++ (if debug then [ConsoleLine.log (loadMsg1 m)] else [])) →
        frameStart t = false := by
      intro t ht
      rcases List.mem_append.mp ht with ht | ht
      · exact hlogs t ht
      · rcases hd : debug with _ | _
        · rw [hd] at ht; simp at ht
        · rw [hd] at ht
          simp only [if_true] at ht
          have := List.mem_singleton.mp ht
          rw [ConsoleLine.log.injEq] at this
          rw [this]
          exact frameStart_loadMsg1 m
    rcases hl : loadOne env m with c | e | _
    · refine ih (acc ++ [c])
        ((logs ++ (if debug then [ConsoleLine.log (loadMsg1 m)] else [])) ++
          (if debug then [ConsoleLine.log (loadMsg2 m)] else [])) ?_ s ?_
      · intro t ht
        rcases List.mem_append.mp ht with ht | ht
        · exact hlogs1 t ht
        · rcases hd : debug with _ | _
          · rw [hd] at ht; simp at ht
          · rw [hd] at ht
            simp only [if_true] at ht
            have := List.mem_singleton.mp ht
            rw [ConsoleLine.log.injEq] at this
            rw [this]
            exact frameStart_loadMsg2 m
      · simpa only [loadConsumers, hl] using hs
    · simp only [loadConsumers, hl] at hs
      exact hlogs1 s hs
    · simp only [loadConsumers, hl] at hs
      exact hlogs1 s hs

theorem loadPhase_logs (env : Env) (a : Args) :
    ∀ s, ConsoleLine.log s ∈ (loadPhase env a).console → frameStart s = false := by
  intro s hs
  rcases hmp : a.mapPath with _ | p | docs
  · simp [loadPhase, hmp] at hs
  · simp only [loadPhase, hmp, loadSingle] at hs
    rcases hr : env.readFile p with e | content
    · simp only [hr] at hs; simp at hs
    · simp only [hr] at hs
      rcases hj : env.parseJson content with e | mc
      · simp only [hj] at hs; simp at hs
      · simp only [hj] at hs
        rcases hn : env.newConsumer mc with e | smc <;> simp only [hn] at hs <;> simp at hs
  · simp only [loadPhase, hmp] at hs
    exact loadConsumers_logs env a.debug docs [] [] (by intro t ht; simp at ht) s hs

theorem loadConsumers_caught (env : Env) (debug : Bool) :
    ∀ (pre : List Str) (bad : Str) (rest : List Str) (e : JsError)
      (acc : List Consumer) (logs : List ConsoleLine),
      (∀ m ∈ pre, ∃ c, loadOne env m = .ok c) →
      loadOne env bad = .fail e →
      (loadConsumers env debug (pre ++ bad :: rest) acc logs).status = .caught e ∧
      (loadConsumers env debug (pre ++ bad :: rest) acc logs).consumers.length =
        acc.length + pre.length := by
  intro pre
  induction pre with
  | nil =>
    intro bad rest e acc logs _ hbad
    simp [loadConsumers, hbad]
  | cons m pre ih =>
    intro bad rest e acc logs hpre hbad
    obtain ⟨c, hc⟩ := hpre m (by simp)
    have hrec := ih bad rest e (acc ++ [c])
      ((logs ++ (if debug then [.log (loadMsg1 m)] else [])) ++
        (if debug then [.log (loadMsg2 m)] else []))
      (fun x hx => hpre x (by simp [hx])) hbad
    simp only [List.cons_append, loadConsumers, hc, List.append_eq]
    refine ⟨hrec.1, ?_⟩
    rw [hrec.2]
    simp
    omega

/-! Claim theorems. -/

/-- C4: for every preference-flag state and every lookup, the stateful
resolver `findPositionInAllSourceMaps` returns exactly the result of the
stateless first-match resolver over the same table order, and it queries
exactly the tables up to and including the first hit (all tables when none
hits) — remaining tables are not queried. -/
theorem claim4_refinement (pref : Bool) (cs : List Consumer) (lk : Lookup) :
    (findPositionInAllSourceMaps pref cs lk).result = firstMatchResolver lk cs ∧
    (findPositionInAllSourceMaps pref cs lk).queried = List.range (scanCount lk cs) := by
  constructor
  · rw [findPositionInAllSourceMaps, findLoop_result]
  · rw [findPositionInAllSourceMaps, findLoop_queried]
    simp

/-- C1 counterexample: with tables `[cMiss, cHit]` the first successful
resolution happens at index 1, yet after the "swap" the front table of the
Table Set still misses the very same lookup, and a second identical
resolution queries index 0 first and needs index 1 again — the successful
table was not promoted to the front of the iteration order (the code
mutates properties of the consumer object, not the `consumers` array). -/
theorem claim1_counterexample :
    (findPositionInAllSourceMaps false [cMiss, cHit] lk0).result = some hitRes ∧
    firstHitIndex lk0 [cMiss, cHit] = some 1 ∧
    ((findPositionInAllSourceMaps false [cMiss, cHit] lk0).consumers.headD cMiss).originalPositionFor lk0
      = missRes ∧
    missRes ≠ hitRes ∧
    (findPositionInAllSourceMaps
        (findPositionInAllSourceMaps false [cMiss, cHit] lk0).preferred
        (findPositionInAllSourceMaps false [cMiss, cHit] lk0).consumers lk0).queried = [0, 1] :=
  ⟨rfl, rfl, rfl, by decide, rfl⟩

/-- C1 amended: on the first successful resolution at index `i ≠ 0` the
resolver executes the swap-statement branch on the successful consumer
object and marks the preference as settled, but the Table Set's iteration
order — the sequence of lookup behaviours — is unchanged, so subsequent
frame lookups query the tables in the original order. -/
theorem claim1_amended (pref : Bool) (cs : List Consumer) (lk : Lookup) (i : Nat)
    (hpref : pref = false) (hi : firstHitIndex lk cs = some i) (hne : i ≠ 0) :
    (findPositionInAllSourceMaps pref cs lk).preferred = true ∧
    (findPositionInAllSourceMaps pref cs lk).swapped = true ∧
    (findPositionInAllSourceMaps pref cs lk).consumers.map (fun c => c.originalPositionFor) =
      cs.map (fun c => c.originalPositionFor) := by
  subst hpref
  refine ⟨?_, ?_, ?_⟩
  · rw [findPositionInAllSourceMaps, findLoop_preferred, firstMatch_isSome, hi]
    simp
  · rw [findPositionInAllSourceMaps, findLoop_swapped, hi]
    simp [hne]
  · rw [findPositionInAllSourceMaps, findLoop_behaviors]

/-- Witness of C1 amended at the concrete tables `[cMiss, cHit]`. -/
theorem claim1_amended_witness :
    (false = false) ∧ firstHitIndex lk0 [cMiss, cHit] = some 1 ∧ ((1 : Nat) ≠ 0) ∧
    ((findPositionInAllSourceMaps false [cMiss, cHit] lk0).preferred = true ∧
     (findPositionInAllSourceMaps false [cMiss, cHit] lk0).swapped = true ∧
     (findPositionInAllSourceMaps false [cMiss, cHit] lk0).consumers.map
        (fun c => c.originalPositionFor) =
       [cMiss, cHit].map (fun c => c.originalPositionFor)) :=
  ⟨rfl, rfl, by decide, claim1_amended false [cMiss, cHit] lk0 1 rfl rfl (by decide)⟩

/-- C6: the `preferredConsumerOrder` flag is monotone along every run that
starts with the flag `false` (so it transitions `false → true` at most
once and never back); once the flag is `true` no frame fires the swap
branch, whatever tables resolve; and from the initial `false` state the
flag becomes `true` on a frame exactly when that frame resolves
successfully. -/
theorem claim6_flag_invariant :
    (∀ (debug : Bool) (cs : List Consumer) (frames : List Frame),
      List.Chain' (fun a b => a ≤ b) (false :: flagTrace debug cs false frames)) ∧
    (∀ (debug : Bool) (cs : List Consumer) (frames : List Frame),
      swapTrace debug cs true frames = List.replicate frames.length false) ∧
    (∀ (debug : Bool) (cs : List Consumer) (f : Frame),
      (processFrame debug cs false f).preferred =
        (match usableLine f with
         | none => false
         | some n => (firstMatchResolver ⟨n, f.column⟩ cs).isSome)) :=
  ⟨fun debug cs frames => flagTrace_chain debug frames cs false,
   fun debug cs frames => swapTrace_replicate debug frames cs,
   fun debug cs f => processFrame_preferred_false debug cs f⟩

/-- C5: a frame whose `lineNumber` is `null` or `< 1` is rendered as
`    at <methodName>` (or `    at [unknown]` when the method name is also
absent or empty) and the resolver is not invoked: no table is queried, no
debug line is emitted, and the resolver state is untouched. -/
theorem claim5_no_line_frame (debug : Bool) (cs : List Consumer) (pref : Bool) (f : Frame)
    (h : f.lineNumber = none ∨ ∃ n, f.lineNumber = some n ∧ n < 1) :
    processFrame debug cs pref f =
      ⟨["    at ".data ++ orUnknown f.methodName], [], cs, pref, [], false⟩ :=
  processFrame_unusable debug cs pref f h

/-- Witness of C5 at a concrete frame with `lineNumber = null` and no
method name. -/
theorem claim5_witness :
    ((⟨none, none, none⟩ : Frame).lineNumber = none ∨
      ∃ n, (⟨none, none, none⟩ : Frame).lineNumber = some n ∧ n < 1) ∧
    processFrame false [] false ⟨none, none, none⟩ =
      ⟨["    at [unknown]".data], [], [], false, [], false⟩ := by
  refine ⟨Or.inl rfl, ?_⟩
  rw [claim5_no_line_frame false [] false ⟨none, none, none⟩ (Or.inl rfl)]
  rfl

/-- C8: a frame with a usable line number for which every table's lookup
comes back without a defined line produces no rendered output line at
all. -/
theorem claim8_not_found_drops (debug : Bool) (cs : List Consumer) (pref : Bool)
    (f : Frame) (n : Int) (hn : f.lineNumber = some n) (hge : ¬ n < 1)
    (hm : firstMatchResolver ⟨n, f.column⟩ cs = none) :
    (processFrame debug cs pref f).rendered = [] := by
  have hr : (findPositionInAllSourceMaps pref cs ⟨n, f.column⟩).result = none := by
    rw [findPositionInAllSourceMaps, findLoop_result, hm]
  simp [processFrame, hn, hge, hr]

/-- Witness of C8 at a concrete frame and an always-missing table. -/
theorem claim8_witness :
    (⟨some ("foo".data), some 3, some 1⟩ : Frame).lineNumber = some 3 ∧
    ¬ (3 : Int) < 1 ∧
    firstMatchResolver ⟨3, some 1⟩ [cMiss] = none ∧
    (processFrame false [cMiss] false ⟨some ("foo".data), some 3, some 1⟩).rendered = [] :=
  ⟨rfl, by decide, rfl,
   claim8_not_found_drops false [cMiss] false ⟨some ("foo".data), some 3, some 1⟩ 3
     rfl (by decide) rfl⟩

/-- C10: for every environment (hence every behaviour of the file system,
clipboard, JSON parser and the two external libraries) and every argument
tuple, the promise returned by `stacktracify` resolves: the outer
`try`/`catch` converts every thrown error into a console diagnostic and a
normal return, so no error reaches the caller. -/
theorem claim10_never_rejects (env : Env) (a : Args) :
    promiseResolved (stacktracify env a) = true := by
  rcases h : (stacktracifyBody env a).thrown with _ | e <;>
    simp [stacktracify, promiseResolved, h]

/-- C3 counterexample: in the run on `envC`/`argsEmptyDoc` zero source-map
tables are loaded (the `if (!file) return;` guard fires on the empty map
file), yet the run returns silently with no console output whatsoever —
in particular the NoTablesLoaded error is never reported. -/
theorem claim3_counterexample :
    stacktracify envC argsEmptyDoc = .ok ⟨[], false, false⟩ ∧
    (loadPhase envC argsEmptyDoc).consumers = [] ∧
    (loadPhase envC argsEmptyDoc).status = .earlyExit :=
  ⟨rfl, rfl, rfl⟩

/-- C3 amended: in every run with a truthy map path in which zero tables
are loaded and the loader did not return early on empty file content, the
run ends with the NoTablesLoaded diagnostic
(`Unable to resolve source map consumers!`) without ever parsing the
stack-trace text, and every `console.log` line of the run is a loading
diagnostic, none of them a header or frame line (no line starts with
`    at `). -/
theorem claim3_no_tables (env : Env) (a : Args)
    (hmp : mapFalsy a.mapPath = false)
    (hst : (loadPhase env a).status ≠ .earlyExit)
    (hcs : (loadPhase env a).consumers = []) :
    ∃ pre, stacktracify env a =
        .ok ⟨pre ++ [.error ("Unable to resolve source map consumers!".data)], false, false⟩ ∧
      (∀ s, ConsoleLine.log s ∈ pre → frameStart s = false) := by
  rcases hst' : (loadPhase env a).status with _ | e | _
  · refine ⟨(loadPhase env a).console, ?_, ?_⟩
    · simp [stacktracify, stacktracifyBody, hmp, hst', afterLoad, hcs]
    · intro s hs
      exact loadPhase_logs env a s hs
  · refine ⟨(loadPhase env a).console ++
      [.log ("An error occurred loading source map consumers! ".data ++ e.message)], ?_, ?_⟩
    · simp [stacktracify, stacktracifyBody, hmp, hst', afterLoad, hcs]
    · intro s hs
      rcases List.mem_append.mp hs with hs | hs
      · exact loadPhase_logs env a s hs
      · have hh := List.mem_singleton.mp hs
        rw [ConsoleLine.log.injEq] at hh
        rw [hh]
        exact frameStart_errLoad e.message
  · exact absurd hst' hst

/-- Witness of C3 amended on the run whose only map document is malformed. -/
theorem claim3_witness :
    mapFalsy argsBadDoc.mapPath = false ∧
    (loadPhase envC argsBadDoc).status ≠ LoadStatus.earlyExit ∧
    (loadPhase envC argsBadDoc).consumers = [] ∧
    (∃ pre, stacktracify envC argsBadDoc =
        .ok ⟨pre ++ [.error ("Unable to resolve source map consumers!".data)], false, false⟩ ∧
      (∀ s, ConsoleLine.log s ∈ pre → frameStart s = false)) :=
  ⟨rfl, by decide, rfl, claim3_no_tables envC argsBadDoc rfl (by decide) rfl⟩

/-- C2 counterexample: over the documents `mapA`, `mapB`, `mapC` — where
only `mapB` is malformed — loading ends with the caught parse error and a
single consumer: the well-formed sibling `mapC`, although it loads fine
in isolation, produced no table, because the `catch` sits outside the
loop and the failure aborted the remaining iterations. -/
theorem claim2_counterexample :
    (loadConsumers envC false ["mapA".data, "mapB".data, "mapC".data] [] []).consumers.length
      = 1 ∧
    (loadConsumers envC false ["mapA".data, "mapB".data, "mapC".data] [] []).status
      = .caught eB ∧
    loadOne envC ("mapC".data) = .ok cC :=
  ⟨rfl, rfl, rfl⟩

/-- C2 amended: a load failure of one document is caught at the level of
the whole loading loop: the documents before the failing one keep their
tables, but loading does not continue — the failing document and every
document after it are skipped. -/
theorem claim2_amended (env : Env) (debug : Bool) (pre : List Str) (bad : Str)
    (rest : List Str) (e : JsError)
    (hpre : ∀ m ∈ pre, ∃ c, loadOne env m = .ok c)
    (hbad : loadOne env bad = .fail e) :
    (loadConsumers env debug (pre ++ bad :: rest) [] []).status = .caught e ∧
    (loadConsumers env debug (pre ++ bad :: rest) [] []).consumers.length = pre.length := by
  have h := loadConsumers_caught env debug pre bad rest e [] [] hpre hbad
  simpa using h

/-- Witness of C2 amended on the concrete documents of `envC`. -/
theorem claim2_witness :
    (∀ m ∈ ["mapA".data], ∃ c, loadOne envC m = OneLoad.ok c) ∧
    loadOne envC ("mapB".data) = OneLoad.fail eB ∧
    ((loadConsumers envC false (["mapA".data] ++ "mapB".data :: ["mapC".data]) [] []).status
        = .caught eB ∧
     (loadConsumers envC false (["mapA".data] ++ "mapB".data :: ["mapC".data]) [] []).consumers.length
        = ["mapA".data].length) := by
  have hpre : ∀ m ∈ ["mapA".data], ∃ c, loadOne envC m = OneLoad.ok c := by
    intro m hm
    rw [List.mem_singleton] at hm
    subst hm
    exact ⟨cA, rfl⟩
  exact ⟨hpre, rfl,
    claim2_amended envC false ["mapA".data] "mapB".data ["mapC".data] eB hpre rfl⟩

/-- C7: the normaliser rewrites every line of the shape
`<whitespace><file>:<line>:<col><whitespace><method>` — leading
whitespace, a location token `f:d1:d2` with nonempty digit runs, then
whitespace and a final method token — into
`<whitespace>at <method> (<file>:<line>:<col>)`; every line not matching
the pattern passes through unchanged; and in particular
`    index-abc123.js:2:5 bar` normalises to
`    at bar (index-abc123.js:2:5)`. -/
theorem claim7_normalizer :
    (∀ (ws f d1 d2 ws2 m : Str),
      ws ≠ [] → (∀ c ∈ ws, isJsWs c = true) →
      f ≠ [] → (∀ c ∈ f, isJsWs c = false) →
      d1 ≠ [] → (∀ c ∈ d1, isAsciiDigit c = true) →
      d2 ≠ [] → (∀ c ∈ d2, isAsciiDigit c = true) →
      ws2 ≠ [] → (∀ c ∈ ws2, isJsWs c = true) →
      m ≠ [] → (∀ c ∈ m, isJsWs c = false) →
      normalizeLine (ws ++ (f ++ [':'] ++ d1 ++ [':'] ++ d2) ++ ws2 ++ m) =
        ws ++ "at ".data ++ m ++ " (".data ++ (f ++ [':'] ++ d1 ++ [':'] ++ d2) ++ ")".data) ∧
    (∀ line : Str, lineMatches line = false → normalizeLine line = line) ∧
    normalizeLine ("    index-abc123.js:2:5 bar".data) = "    at bar (index-abc123.js:2:5)".data := by
  refine ⟨?_, ?_, by decide⟩
  · intro ws f d1 d2 ws2 m hwsn hws hfn hf h1n h1 h2n h2 hws2n hws2 hmn hm
    have htok2ne : f ++ [':'] ++ d1 ++ [':'] ++ d2 ≠ [] := by simp
    have htok2nw : ∀ c ∈ f ++ [':'] ++ d1 ++ [':'] ++ d2, isJsWs c = false := by
      intro c hc
      simp only [List.mem_append, List.mem_singleton] at hc
      rcases hc with (((hc | hc) | hc) | hc) | hc
      · exact hf c hc
      · rw [hc]; decide
      · exact digit_not_jsws c (h1 c hc)
      · rw [hc]; decide
      · exact digit_not_jsws c (h2 c hc)
    have hspans := lineSpans_concat ws (f ++ [':'] ++ d1 ++ [':'] ++ d2) ws2 m
      hws htok2nw htok2ne hws2 hws2n hm hmn
    have hloc : locMatch (f ++ [':'] ++ d1 ++ [':'] ++ d2) = true :=
      locMatch_build f d1 d2 hfn h1n h2n h1 h2
    have hall : m.all (fun c => !isJsWs c) = true := by
      rw [List.all_eq_true]
      intro c hc
      simp [hm c hc]
    have hloc' : locMatch (f ++ ':' :: (d1 ++ ':' :: d2)) = true := by
      simpa using hloc
    have hmatch : lineMatches (ws ++ (f ++ [':'] ++ d1 ++ [':'] ++ d2) ++ ws2 ++ m) = true := by
      simp only [lineMatches, hspans]
      simp [hwsn, htok2ne, hws2n, hmn, hall, hloc, hloc']
    simp only [normalizeLine, hspans, hmatch, if_true]
  · intro line h
    simp [normalizeLine, h]

/-- Witness of C7 on the concrete line `    index-abc123.js:2:5 bar`. -/
theorem claim7_witness :
    ("    ".data ≠ ([] : Str)) ∧
    normalizeLine ("    ".data ++
        ("index-abc123.js".data ++ [':'] ++ "2".data ++ [':'] ++ "5".data) ++
        " ".data ++ "bar".data) =
      "    ".data ++ "at ".data ++ "bar".data ++ " (".data ++
        ("index-abc123.js".data ++ [':'] ++ "2".data ++ [':'] ++ "5".data) ++ ")".data :=
  ⟨by decide,
   claim7_normalizer.1 ("    ".data) ("index-abc123.js".data) ("2".data) ("5".data) (" ".data) ("bar".data)
     (by decide) (by decide) (by decide) (by decide) (by decide) (by decide)
     (by decide) (by decide) (by decide) (by decide) (by decide) (by decide)⟩

/-- C9: the normaliser is idempotent on canonical frame lines: a line of
the shape `<whitespace>at <method> (<file>:<line>:<col>)` — in fact any
line whose text after its leading whitespace starts with `at ` — does not
match the rewrite pattern and is returned unchanged. -/
theorem claim9_idempotent (ws method loc : Str) (hws : ∀ c ∈ ws, isJsWs c = true) :
    normalizeLine (ws ++ "at ".data ++ method ++ " (".data ++ loc ++ ")".data) =
      ws ++ "at ".data ++ method ++ " (".data ++ loc ++ ")".data := by
  have hline : ws ++ "at ".data ++ method ++ " (".data ++ loc ++ ")".data =
      ws ++ ('a' :: 't' :: ' ' :: (method ++ " (".data ++ loc ++ ")".data)) := by
    simp
  rw [hline]
  have h2 : (ws ++ ('a' :: 't' :: ' ' :: (method ++ " (".data ++ loc ++ ")".data))).dropWhile
      isJsWs = 'a' :: 't' :: ' ' :: (method ++ " (".data ++ loc ++ ")".data) :=
    dropWhile_concat hws (by decide)
  have h3 : ('a' :: 't' :: ' ' :: (method ++ " (".data ++ loc ++ ")".data)).takeWhile
      (fun c => !isJsWs c) = ['a', 't'] := by
    simp [List.takeWhile_cons, show isJsWs 'a' = false from rfl,
      show isJsWs 't' = false from rfl, show isJsWs ' ' = true from rfl]
  have hm : lineMatches (ws ++ ('a' :: 't' :: ' ' :: (method ++ " (".data ++ loc ++ ")".data)))
      = false := by
    simp only [lineMatches, lineSpans, h2, h3]
    simp [show locMatch ['a', 't'] = false from rfl]
  have hm' : lineMatches (ws ++ 'a' :: 't' :: ' ' :: (method ++ ' ' :: '(' :: (loc ++ [')'])))
      = false := by
    simpa using hm
  simp [normalizeLine, hm, hm']

/-- Witness of C9 on the canonical line `    at bar (index-abc123.js:2:5)`. -/
theorem claim9_witness :
    (∀ c ∈ "    ".data, isJsWs c = true) ∧
    normalizeLine ("    ".data ++ "at ".data ++ "bar".data ++ " (".data ++
        "index-abc123.js:2:5".data ++ ")".data) =
      "    ".data ++ "at ".data ++ "bar".data ++ " (".data ++
        "index-abc123.js:2:5".data ++ ")".data :=
  ⟨by decide,
   claim9_idempotent ("    ".data) ("bar".data) ("index-abc123.js:2:5".data) (by decide)⟩

end Stacktracify
